import Mathlib

/-!
Verification of the BCal booking core (backend/app): data model, slot
generation, team aggregation, agent assignment, and the booking/availability
endpoints, embedded shallowly from the Python source.

Modelling conventions:
* Wall-clock instants (Python timezone-aware datetimes) are absolute minutes
  since an epoch fixed at a Monday midnight, as `Nat`.  The spec fixes minute
  resolution for all times used by the core, so `datetime.combine(date,
  datetime.max.time())` (the last microsecond of a day) and midnight of the
  next day bound the same set of minute-valued instants, and
  `date.weekday()` is `day % 7`.
* Availability `start_time`/`end_time` are stored as "HH:MM" strings and
  compared lexicographically in SQL; for zero-padded values this order
  coincides with the numeric order of minutes-from-midnight, which is how we
  represent them (`Nat` minutes).
* SQLAlchemy queries become list filters; the legacy `Query` API returns each
  mapped entity row once, so entity joins become existential filters.
* Python float arithmetic on priority scores (load - hours*0.1 - 0.5) is
  modelled exactly over `ℚ`.
* Python truthiness tests (`if team_id:`, `if meeting_type:`,
  `if preferred_agent_id:`) are modelled on `Option` values: `none`, `some 0`
  and `some ""` are falsy.
-/

namespace BCal

/-- Booking status enum from models/booking.py. -/
inductive BookingStatus where
  | pending
  | confirmed
  | cancelled
  | completed
deriving DecidableEq, Repr

/-- Bool test for `Booking.status.in_([PENDING, CONFIRMED])`. -/
def pendingOrConfirmed : BookingStatus → Bool
  | .pending => true
  | .confirmed => true
  | _ => false

/-- User row (models/user.py), restricted to the fields read by the core. -/
structure User where
  id : Nat
  email : String
  username : String
  fullName : String
  hashedPassword : String
  isActive : Bool
deriving DecidableEq, Repr

/-- Availability row (models/availability.py); clock times as minutes from
midnight, `meetingType` nullable with column default "general". -/
structure Availability where
  id : Nat
  userId : Nat
  dayOfWeek : Nat
  startTime : Nat
  endTime : Nat
  isActive : Bool
  slotDurationMinutes : Nat
  meetingType : Option String
deriving DecidableEq, Repr

/-- Booking row (models/booking.py); times are absolute minutes. -/
structure Booking where
  hostId : Nat
  guestId : Nat
  title : String
  description : Option String
  startTime : Nat
  endTime : Nat
  status : BookingStatus
  guestEmail : String
  guestName : String
deriving DecidableEq, Repr

/-- Team row (models/team.py), fields read by the core. -/
structure Team where
  id : Nat
  name : String
  isActive : Bool
deriving DecidableEq, Repr

/-- TeamMember association row (models/team.py). -/
structure TeamMember where
  teamId : Nat
  userId : Nat
  isActive : Bool
deriving DecidableEq, Repr

/-- The database state visible to the core. -/
structure DB where
  users : List User
  availabilities : List Availability
  teamMembers : List TeamMember
  teams : List Team
  bookings : List Booking
deriving DecidableEq, Repr

/-- Python date.weekday() with the epoch at a Monday: 0=Monday .. 6=Sunday. -/
def weekday (date : Nat) : Nat := date % 7

/-- Time-of-day of an absolute instant, i.e. `strftime("%H:%M")` as minutes. -/
def timeOfDay (t : Nat) : Nat := t % 1440

/-- Python truthiness of an Optional[int]: None and 0 are falsy. -/
def truthyNat : Option Nat → Bool
  | none => false
  | some n => !(n == 0)

/-- Python truthiness of an Optional[str]: None and "" are falsy. -/
def truthyStr : Option String → Bool
  | none => false
  | some s => !(s == "")

/-! ### Slot generation (api/availability.py get_available_slots loop, and the
identical per-member loop of services/assignment.py get_team_availability).
Both loops are `while current_minutes + 30 <= end_minutes` with the literal
step 30; `slotWalk` is the sequence of values taken by `current_minutes`. -/

/-- While-loop engine of the slot loops, as structural recursion on a fuel
counter (each iteration advances `cur` by 30 ≥ 1, so `endM - cur` iterations
always suffice; the fuel only realises the loop's termination and never cuts
it short). -/
def slotWalkAux : Nat → Nat → Nat → List Nat
  | 0, _, _ => []
  | fuel + 1, cur, endM =>
      if cur + 30 ≤ endM then cur :: slotWalkAux fuel (cur + 30) endM else []

/-- Successive values of `current_minutes` in the slot loops: while
`current + 30 <= end_minutes`, yield `current` and step by 30. -/
def slotWalk (cur endM : Nat) : List Nat := slotWalkAux (endM - cur) cur endM

/-- Loop body test `slot_start < booking.end_time and slot_end >
booking.start_time` over all fetched bookings (is_available stays True iff no
overlap is found). `cur` is the minute offset within day `date`. -/
def slotIsFree (date : Nat) (bookings : List Booking) (cur : Nat) : Bool :=
  bookings.all fun b =>
    !(decide (1440 * date + cur < b.endTime) && decide (b.startTime < 1440 * date + cur + 30))

/-- One element of the single-user endpoint's response (schemas
AvailabilitySlot); start/end as minute offsets within the date. -/
structure AvailabilitySlot where
  startMinutes : Nat
  endMinutes : Nat
  isAvailable : Bool
deriving DecidableEq, Repr

/-- The slot loop of get_available_slots for one availability window: every
candidate slot is emitted, flagged with its availability. -/
def generate_slots (date : Nat) (existingBookings : List Booking)
    (startMinutes endMinutes : Nat) : List AvailabilitySlot :=
  (slotWalk startMinutes endMinutes).map fun cur =>
    { startMinutes := cur, endMinutes := cur + 30,
      isAvailable := slotIsFree date existingBookings cur }

/-- Booking query of get_available_slots: the host's {pending, confirmed}
bookings whose start lies in `[start_of_day, start_of_day + 1 day)`. -/
def dayBookingsQuery (db : DB) (uid date : Nat) : List Booking :=
  db.bookings.filter fun b =>
    b.hostId == uid && decide (1440 * date ≤ b.startTime) &&
      decide (b.startTime < 1440 * date + 1440) && pendingOrConfirmed b.status

/-- api/availability.py get_available_slots: availability rows of the user for
the date's weekday, then one flagged slot list per row. -/
def get_available_slots (db : DB) (userId date : Nat) : List AvailabilitySlot :=
  let availabilities := db.availabilities.filter fun a =>
    a.userId == userId && a.dayOfWeek == weekday date && a.isActive
  let existingBookings := dayBookingsQuery db userId date
  availabilities.flatMap fun a =>
    generate_slots date existingBookings a.startTime a.endTime

/-! ### Basic slot-walk lemmas -/

theorem slotWalkAux_length (endM : Nat) :
    ∀ fuel cur, endM - cur ≤ fuel →
      (slotWalkAux fuel cur endM).length = (endM - cur) / 30 := by
  intro fuel
  induction fuel with
  | zero =>
      intro cur h
      simp only [slotWalkAux, List.length_nil]
      omega
  | succ f ih =>
      intro cur h
      simp only [slotWalkAux]
      split
      · rename_i hle
        rw [List.length_cons, ih (cur + 30) (by omega)]
        omega
      · rename_i hgt
        simp only [List.length_nil]
        omega

theorem slotWalk_length (cur endM : Nat) :
    (slotWalk cur endM).length = (endM - cur) / 30 :=
  slotWalkAux_length endM (endM - cur) cur (Nat.le_refl _)

theorem mem_slotWalkAux (endM : Nat) :
    ∀ fuel cur c, c ∈ slotWalkAux fuel cur endM → cur ≤ c ∧ c + 30 ≤ endM := by
  intro fuel
  induction fuel with
  | zero => intro cur c h; simp [slotWalkAux] at h
  | succ f ih =>
      intro cur c h
      simp only [slotWalkAux] at h
      split at h
      · rename_i hle
        rcases List.mem_cons.mp h with rfl | h'
        · exact ⟨Nat.le_refl _, hle⟩
        · have := ih (cur + 30) c h'
          omega
      · simp at h

theorem mem_slotWalk {c cur endM : Nat} (h : c ∈ slotWalk cur endM) :
    cur ≤ c ∧ c + 30 ≤ endM :=
  mem_slotWalkAux endM (endM - cur) cur c h

theorem slotWalk_eq_nil_of_ge {cur endM : Nat} (h : endM ≤ cur) :
    slotWalk cur endM = [] := by
  unfold slotWalk
  rw [show endM - cur = 0 by omega]
  rfl

/-! ### Team aggregator (services/assignment.py get_team_availability) -/

/-- One entry of get_team_availability's result list; slot_start/slot_end are
kept as minute offsets within the date (their "HH:MM" rendering is out of
model). -/
structure TeamSlot where
  userId : Nat
  userName : String
  startMinutes : Nat
  endMinutes : Nat
  meetingType : Option String
  slotDurationMinutes : Nat
deriving DecidableEq, Repr

/-- Booking query of get_team_availability: `today_start <= start_time <
datetime.combine(date, datetime.max.time())`; at the model's minute
resolution the last microsecond of the day bounds the same instants as the
next midnight, giving the same filter as `dayBookingsQuery`. -/
def teamDayBookingsQuery (db : DB) (uid date : Nat) : List Booking :=
  db.bookings.filter fun b =>
    b.hostId == uid && decide (1440 * date ≤ b.startTime) &&
      decide (b.startTime < 1440 * date + 1440) && pendingOrConfirmed b.status

/-- Per-member slot loop of get_team_availability: same walk as the
single-user loop, but a slot is appended only when it is available. -/
def team_member_slots (date : Nat) (user : User) (availability : Availability)
    (existingBookings : List Booking) : List TeamSlot :=
  (slotWalk availability.startTime availability.endTime).filterMap fun cur =>
    if slotIsFree date existingBookings cur then
      some { userId := user.id, userName := user.fullName,
             startMinutes := cur, endMinutes := cur + 30,
             meetingType := availability.meetingType,
             slotDurationMinutes :=
               if availability.slotDurationMinutes == 0 then 30
               else availability.slotDurationMinutes }
    else none

/-- The (User, Availability) join of get_team_availability: active members of
the team paired with each of their active availability rows for the date's
weekday. -/
def team_member_pairs (db : DB) (teamId date : Nat) : List (User × Availability) :=
  db.users.flatMap fun u =>
    if u.isActive &&
        db.teamMembers.any (fun t => t.teamId == teamId && t.userId == u.id && t.isActive) then
      (db.availabilities.filter fun a =>
        a.userId == u.id && a.dayOfWeek == weekday date && a.isActive).map (fun a => (u, a))
    else []

/-- services/assignment.py get_team_availability. -/
def get_team_availability (db : DB) (teamId date : Nat) : List TeamSlot :=
  (team_member_pairs db teamId date).flatMap fun p =>
    team_member_slots date p.1 p.2 (teamDayBookingsQuery db p.1.id date)

/-! ### Assignment engine (services/assignment.py) -/

/-- Row condition of the joined availability in get_available_agents' base
query: the availability belongs to the user, matches the weekday, is active,
covers the requested clock window, and matches the meeting type (the last
filter is added only when `meeting_type` is truthy). -/
def availabilityRowMatches (uid dow sHM eHM : Nat) (mt : Option String)
    (a : Availability) : Bool :=
  a.userId == uid && a.dayOfWeek == dow && a.isActive &&
    decide (a.startTime ≤ sHM) && decide (eHM ≤ a.endTime) &&
    (!truthyStr mt || a.meetingType == mt)

/-- Candidate filter of get_available_agents (step 1): active user, joined
availability row matching, and — when `team_id` is truthy — an active team
membership. -/
def isCandidate (db : DB) (date sT eT : Nat) (teamId : Option Nat)
    (mt : Option String) (u : User) : Bool :=
  u.isActive &&
    db.availabilities.any
      (availabilityRowMatches u.id (weekday date) (timeOfDay sT) (timeOfDay eT) mt) &&
    (!truthyNat teamId ||
      db.teamMembers.any (fun t => some t.teamId == teamId && t.userId == u.id && t.isActive))

/-- Conflict count of get_available_agents: the agent's {pending, confirmed}
bookings overlapping `[start_time, end_time)` under the open-interval test. -/
def conflictingBookingsCount (db : DB) (uid sT eT : Nat) : Nat :=
  (db.bookings.filter fun b =>
    b.hostId == uid && decide (b.startTime < eT) && decide (sT < b.endTime) &&
      pendingOrConfirmed b.status).length

/-- Load query of get_available_agents: the agent's {pending, confirmed}
bookings starting within the calendar day `date`. -/
def todayBookingsCount (db : DB) (uid date : Nat) : Nat :=
  (db.bookings.filter fun b =>
    b.hostId == uid && decide (1440 * date ≤ b.startTime) &&
      decide (b.startTime < 1440 * date + 1440) && pendingOrConfirmed b.status).length

/-- Availability row used for scoring: `.first()` of the agent's active rows
for the weekday (note: without the window or meeting-type filters of the
candidate query). -/
def scoringAvailability (db : DB) (uid date : Nat) : Option Availability :=
  db.availabilities.find? fun a =>
    a.userId == uid && a.dayOfWeek == weekday date && a.isActive

/-- services/assignment.py _calculate_priority_score, with float arithmetic
carried out exactly in ℚ. -/
def calculate_priority_score (currentLoad : Nat) (availability : Option Availability) : ℚ :=
  let score : ℚ := currentLoad
  let score : ℚ :=
    match availability with
    | some a => score - ((a.endTime : ℚ) - (a.startTime : ℚ)) / 60 * (1 / 10)
    | none => score
  match availability with
  | some a =>
      if truthyStr a.meetingType && !(a.meetingType == some "general") then score - 1 / 2
      else score
  | none => score

/-- One element of get_available_agents' result list. -/
structure AgentLoad where
  agent : User
  load : Nat
  availability : Option Availability
  priorityScore : ℚ
deriving DecidableEq, Repr

/-- The agents_with_load list built by get_available_agents before sorting:
candidates of step 1, kept when their conflict count is zero, with load,
scoring availability and priority score attached. -/
def agents_with_load (db : DB) (date sT eT : Nat) (teamId : Option Nat)
    (mt : Option String) : List AgentLoad :=
  (db.users.filter (isCandidate db date sT eT teamId mt)).filterMap fun agent =>
    if conflictingBookingsCount db agent.id sT eT == 0 then
      let load := todayBookingsCount db agent.id date
      let availability := scoringAvailability db agent.id date
      some { agent := agent, load := load, availability := availability,
             priorityScore := calculate_priority_score load availability }
    else none

instance : DecidableRel fun x y : AgentLoad => x.priorityScore ≤ y.priorityScore :=
  fun _ _ => inferInstanceAs (Decidable (_ ≤ _))

/-- services/assignment.py get_available_agents: survivors sorted by priority
score; Python's list.sort is stable, which insertion sort realises. -/
def get_available_agents (db : DB) (date sT eT : Nat) (teamId : Option Nat)
    (mt : Option String) : List AgentLoad :=
  (agents_with_load db date sT eT teamId mt).insertionSort
    fun x y => x.priorityScore ≤ y.priorityScore

/-- services/assignment.py assign_agent: none when no survivor; else the
preferred agent when truthy, present and under 5 bookings today; else the
first (lowest-score) survivor. -/
def assign_agent (db : DB) (date sT eT : Nat) (teamId : Option Nat)
    (mt : Option String) (preferredAgentId : Option Nat) : Option User :=
  match get_available_agents db date sT eT teamId mt with
  | [] => none
  | a :: rest =>
      match (if truthyNat preferredAgentId then
               (a :: rest).find? fun x =>
                 some x.agent.id == preferredAgentId && decide (x.load < 5)
             else none) with
      | some x => some x.agent
      | none => some a.agent

/-! ### Booking endpoints (api/bookings.py create_booking, api/public.py
book_with_team).  HTTPException responses become `Except.error detail`; the
returned pair carries the database state at return/raise time.  The ICS
invite and audit logging of book_with_team touch no table of this model. -/

/-- Request body of POST /bookings (schemas BookingCreate). -/
structure BookingCreate where
  title : String
  description : Option String
  startTime : Nat
  endTime : Nat
  guestEmail : String
  guestName : String
  hostId : Nat
deriving DecidableEq, Repr

/-- Request body of POST /public/teams/:id/book (schemas TeamBookingCreate). -/
structure TeamBookingCreate where
  title : String
  description : Option String
  startTime : Nat
  endTime : Nat
  guestName : String
  guestEmail : String
  meetingType : Option String
deriving DecidableEq, Repr

/-- Autoincrement primary key for a freshly inserted user row. -/
def nextUserId (db : DB) : Nat := (db.users.foldl (fun m u => max m u.id) 0) + 1

/-- Guest username built by both endpoints: "guest_" plus the part of the
email before the first "@" (Python email.split("@")[0]). -/
def guestUsername (email : String) : String :=
  "guest_" ++ String.mk (email.toList.takeWhile fun c => c != '@')

/-- Shared guest step of both endpoints: look the guest up by email; when
absent, insert and commit a temporary guest user row. -/
def findOrCreateGuest (db : DB) (email name : String) : User × DB :=
  match db.users.find? (fun u => u.email == email) with
  | some g => (g, db)
  | none =>
      let g : User :=
        { id := nextUserId db, email := email, username := guestUsername email,
          fullName := name, hashedPassword := "", isActive := true }
      (g, { db with users := db.users ++ [g] })

/-- Conflict query shared by both endpoints: does the host have a {pending,
confirmed} booking overlapping `[start_time, end_time)`? -/
def hostConflictExists (db : DB) (hostId sT eT : Nat) : Bool :=
  db.bookings.any fun b =>
    b.hostId == hostId && decide (b.startTime < eT) && decide (sT < b.endTime) &&
      pendingOrConfirmed b.status

/-- api/bookings.py create_booking. -/
def create_booking (db : DB) (req : BookingCreate) : Except String Booking × DB :=
  match db.users.find? (fun u => u.id == req.hostId) with
  | none => (.error "Host not found", db)
  | some _host =>
      let gdb := findOrCreateGuest db req.guestEmail req.guestName
      if hostConflictExists gdb.2 req.hostId req.startTime req.endTime then
        (.error "Time slot is already booked", gdb.2)
      else
        let b : Booking :=
          { hostId := req.hostId, guestId := gdb.1.id, title := req.title,
            description := req.description, startTime := req.startTime,
            endTime := req.endTime, status := .pending,
            guestEmail := req.guestEmail, guestName := req.guestName }
        (.ok b, { gdb.2 with bookings := gdb.2.bookings ++ [b] })

/-- api/public.py book_with_team: team lookup, agent assignment with
`date = start_time.date()`, guest step, conflict check, insert. -/
def book_with_team (db : DB) (teamId : Nat) (req : TeamBookingCreate) :
    Except String Booking × DB :=
  match db.teams.find? (fun t => t.id == teamId && t.isActive) with
  | none => (.error "Team not found", db)
  | some _team =>
      match assign_agent db (req.startTime / 1440) req.startTime req.endTime
          (some teamId) req.meetingType none with
      | none => (.error "No available agents for the selected time slot", db)
      | some agent =>
          let gdb := findOrCreateGuest db req.guestEmail req.guestName
          if hostConflictExists gdb.2 agent.id req.startTime req.endTime then
            (.error "Time slot is already booked", gdb.2)
          else
            let b : Booking :=
              { hostId := agent.id, guestId := gdb.1.id, title := req.title,
                description := req.description, startTime := req.startTime,
                endTime := req.endTime, status := .pending,
                guestEmail := req.guestEmail, guestName := req.guestName }
            (.ok b, { gdb.2 with bookings := gdb.2.bookings ++ [b] })

/-! ### Availability endpoints (api/availability.py create_availability and
update_availability). -/

/-- Request body of POST /availability, with the "HH:MM" strings given by
their parsed hour/minute integers (`map(int, s.split(":"))`); create ignores
every other field of the schema. -/
structure AvailabilityCreate where
  dayOfWeek : Nat
  startHour : Int
  startMinute : Int
  endHour : Int
  endMinute : Int
deriving DecidableEq, Repr

/-- Request body of PUT /availability/:id; `none` models a field absent from
the request (Pydantic exclude_unset). -/
structure AvailabilityUpdate where
  dayOfWeek : Option Nat
  startTime : Option Nat
  endTime : Option Nat
  isActive : Option Bool
  slotDurationMinutes : Option Nat
  meetingType : Option (Option String)
deriving DecidableEq, Repr

/-- Autoincrement primary key for a freshly inserted availability row. -/
def nextAvailabilityId (db : DB) : Nat :=
  (db.availabilities.foldl (fun m a => max m a.id) 0) + 1

/-- api/availability.py create_availability: range-validate the clock values,
require start < end, reject a second active row for the (user, day) pair,
else insert a row (the remaining columns keep their defaults). -/
def create_availability (db : DB) (userId : Nat) (req : AvailabilityCreate) :
    Except String Availability × DB :=
  if !(decide (0 ≤ req.startHour) && decide (req.startHour ≤ 23) &&
       decide (0 ≤ req.startMinute) && decide (req.startMinute ≤ 59) &&
       decide (0 ≤ req.endHour) && decide (req.endHour ≤ 23) &&
       decide (0 ≤ req.endMinute) && decide (req.endMinute ≤ 59)) then
    (.error "Invalid time format. Use HH:MM", db)
  else
    let startMinutes := (req.startHour * 60 + req.startMinute).toNat
    let endMinutes := (req.endHour * 60 + req.endMinute).toNat
    if endMinutes ≤ startMinutes then
      (.error "Start time must be before end time", db)
    else
      match db.availabilities.find? (fun a =>
          a.userId == userId && a.dayOfWeek == req.dayOfWeek && a.isActive) with
      | some _ => (.error "Availability already exists for this day", db)
      | none =>
          let a : Availability :=
            { id := nextAvailabilityId db, userId := userId,
              dayOfWeek := req.dayOfWeek, startTime := startMinutes,
              endTime := endMinutes, isActive := true,
              slotDurationMinutes := 30, meetingType := some "general" }
          (.ok a, { db with availabilities := db.availabilities ++ [a] })

/-- The setattr loop of update_availability: every provided field is applied
verbatim, with no validation of any kind. -/
def applyAvailabilityUpdate (a : Availability) (r : AvailabilityUpdate) : Availability :=
  { a with
    dayOfWeek := r.dayOfWeek.getD a.dayOfWeek,
    startTime := r.startTime.getD a.startTime,
    endTime := r.endTime.getD a.endTime,
    isActive := r.isActive.getD a.isActive,
    slotDurationMinutes := r.slotDurationMinutes.getD a.slotDurationMinutes,
    meetingType := r.meetingType.getD a.meetingType }

/-- api/availability.py update_availability: find the row by (id, user), 404
when absent, else apply the provided fields in place and commit. -/
def update_availability (db : DB) (userId availabilityId : Nat)
    (r : AvailabilityUpdate) : Except String Availability × DB :=
  match db.availabilities.find? (fun a => a.id == availabilityId && a.userId == userId) with
  | none => (.error "Availability not found", db)
  | some a =>
      (.ok (applyAvailabilityUpdate a r),
       { db with availabilities := db.availabilities.map fun b =>
           if b.id == availabilityId && b.userId == userId then
             applyAvailabilityUpdate b r
           else b })

/-! ### Helper lemmas -/

theorem pendingOrConfirmed_iff (s : BookingStatus) :
    pendingOrConfirmed s = true ↔ s = .pending ∨ s = .confirmed := by
  cases s <;> simp [pendingOrConfirmed]

/-- The first element of a list attaining the minimal value of `f`, i.e. the
head of the list after a stable sort on `f`. -/
def firstMinBy {α : Type*} (f : α → ℚ) : List α → Option α
  | [] => none
  | a :: l => some ((firstMinBy f l).elim a fun b => if f a ≤ f b then a else b)

theorem firstMinBy_eq_none {α : Type*} (f : α → ℚ) (l : List α) :
    firstMinBy f l = none ↔ l = [] := by
  cases l with
  | nil => simp [firstMinBy]
  | cons a t => simp [firstMinBy]

theorem head?_insertionSort {α : Type*} (f : α → ℚ) (l : List α) :
    (l.insertionSort fun x y => f x ≤ f y).head? = firstMinBy f l := by
  induction l with
  | nil => rfl
  | cons a t ih =>
      simp only [List.insertionSort]
      cases hs : (t.insertionSort fun x y => f x ≤ f y) with
      | nil =>
          have hperm := List.perm_insertionSort (fun x y : α => f x ≤ f y) t
          rw [hs] at hperm
          have ht : t = [] := hperm.symm.eq_nil
          subst ht
          simp [firstMinBy]
      | cons b s =>
          rw [hs] at ih
          have hb : firstMinBy f t = some b := by
            simpa using ih.symm
          simp only [List.orderedInsert, firstMinBy, hb, Option.elim]
          by_cases h : f a ≤ f b
          · rw [if_pos h, if_pos h]
            rfl
          · rw [if_neg h, if_neg h]
            rfl

theorem firstMinBy_split {α : Type*} (f : α → ℚ) :
    ∀ {l : List α} {x : α}, firstMinBy f l = some x →
      ∃ l1 l2, l = l1 ++ x :: l2 ∧ (∀ y ∈ l1, f x < f y) ∧ (∀ y ∈ l2, f x ≤ f y) := by
  intro l
  induction l with
  | nil => intro x h; simp [firstMinBy] at h
  | cons a t ih =>
      intro x h
      cases ht : firstMinBy f t with
      | none =>
          rw [firstMinBy, ht] at h
          simp only [Option.elim, Option.some.injEq] at h
          have ht' : t = [] := (firstMinBy_eq_none f t).mp ht
          subst ht'
          subst h
          exact ⟨[], [], by simp, by simp, by simp⟩
      | some b =>
          rw [firstMinBy, ht] at h
          simp only [Option.elim, Option.some.injEq] at h
          obtain ⟨l1, l2, heq, h1, h2⟩ := ih ht
          by_cases hab : f a ≤ f b
          · rw [if_pos hab] at h
            subst h
            refine ⟨[], t, by simp, by simp, ?_⟩
            intro y hy
            rw [heq] at hy
            rcases List.mem_append.mp hy with hy1 | hy2
            · exact le_of_lt (lt_of_le_of_lt hab (h1 y hy1))
            · rcases List.mem_cons.mp hy2 with rfl | hy3
              · exact hab
              · exact le_trans hab (h2 y hy3)
          · rw [if_neg hab] at h
            subst h
            refine ⟨a :: l1, l2, by rw [heq]; rfl, ?_, h2⟩
            intro y hy
            rcases List.mem_cons.mp hy with rfl | hy1
            · exact lt_of_not_le hab
            · exact h1 y hy1

theorem mem_agents_with_load {db : DB} {date sT eT : Nat} {teamId : Option Nat}
    {mt : Option String} {x : AgentLoad}
    (h : x ∈ agents_with_load db date sT eT teamId mt) :
    x.agent ∈ db.users ∧ isCandidate db date sT eT teamId mt x.agent = true ∧
      conflictingBookingsCount db x.agent.id sT eT = 0 ∧
      x.load = todayBookingsCount db x.agent.id date ∧
      x.availability = scoringAvailability db x.agent.id date ∧
      x.priorityScore = calculate_priority_score x.load x.availability := by
  unfold agents_with_load at h
  rw [List.mem_filterMap] at h
  obtain ⟨u, hu, hfx⟩ := h
  rw [List.mem_filter] at hu
  by_cases hc : (conflictingBookingsCount db u.id sT eT == 0) = true
  · rw [if_pos hc] at hfx
    have hc' : conflictingBookingsCount db u.id sT eT = 0 := by simpa using hc
    injection hfx with hx
    subst hx
    exact ⟨hu.1, hu.2, hc', rfl, rfl, rfl⟩
  · rw [if_neg hc] at hfx
    exact absurd hfx (by simp)

theorem conflictCount_eq_zero_iff {db : DB} {uid sT eT : Nat} :
    conflictingBookingsCount db uid sT eT = 0 ↔
      ∀ b ∈ db.bookings, b.hostId = uid →
        (b.status = .pending ∨ b.status = .confirmed) →
        ¬(b.startTime < eT ∧ sT < b.endTime) := by
  unfold conflictingBookingsCount
  rw [List.length_eq_zero, List.filter_eq_nil_iff]
  constructor
  · intro h b hb hhost hstat hover
    exact h b hb (by
      simp only [Bool.and_eq_true, beq_iff_eq, decide_eq_true_eq]
      exact ⟨⟨⟨hhost, hover.1⟩, hover.2⟩, (pendingOrConfirmed_iff _).mpr hstat⟩)
  · intro h b hb hp
    simp only [Bool.and_eq_true, beq_iff_eq, decide_eq_true_eq] at hp
    exact h b hb hp.1.1.1 ((pendingOrConfirmed_iff _).mp hp.2) ⟨hp.1.1.2, hp.1.2⟩

theorem mem_get_available_agents {db : DB} {date sT eT : Nat} {teamId : Option Nat}
    {mt : Option String} {x : AgentLoad} :
    x ∈ get_available_agents db date sT eT teamId mt ↔
      x ∈ agents_with_load db date sT eT teamId mt := by
  unfold get_available_agents
  exact List.mem_insertionSort _

theorem get_available_agents_eq_nil {db : DB} {date sT eT : Nat}
    {teamId : Option Nat} {mt : Option String} :
    get_available_agents db date sT eT teamId mt = [] ↔
      agents_with_load db date sT eT teamId mt = [] := by
  unfold get_available_agents
  constructor
  · intro h
    have hperm := List.perm_insertionSort
      (fun x y : AgentLoad => x.priorityScore ≤ y.priorityScore)
      (agents_with_load db date sT eT teamId mt)
    rw [h] at hperm
    exact hperm.symm.eq_nil
  · intro h
    rw [h]
    rfl

theorem findOrCreateGuest_bookings (db : DB) (email name : String) :
    (findOrCreateGuest db email name).2.bookings = db.bookings := by
  unfold findOrCreateGuest
  cases db.users.find? (fun u => u.email == email) <;> rfl

theorem assign_agent_mem {db : DB} {date sT eT : Nat} {teamId : Option Nat}
    {mt : Option String} {pref : Option Nat} {u : User}
    (h : assign_agent db date sT eT teamId mt pref = some u) :
    ∃ x ∈ agents_with_load db date sT eT teamId mt, u = x.agent := by
  unfold assign_agent at h
  cases hg : get_available_agents db date sT eT teamId mt with
  | nil => rw [hg] at h; simp at h
  | cons a rest =>
      rw [hg] at h
      have h' : (match (if truthyNat pref then
          (a :: rest).find? (fun x => some x.agent.id == pref && decide (x.load < 5))
        else none) with
        | some x => some x.agent
        | none => some a.agent) = some u := h
      rcases hf : (if truthyNat pref then
          (a :: rest).find? (fun x => some x.agent.id == pref && decide (x.load < 5))
        else none) with _ | x
      · rw [hf] at h'
        have h2 : some a.agent = some u := h'
        simp only [Option.some.injEq] at h2
        refine ⟨a, ?_, h2.symm⟩
        rw [← mem_get_available_agents, hg]
        exact List.mem_cons_self a rest
      · rw [hf] at h'
        have h2 : some x.agent = some u := h'
        simp only [Option.some.injEq] at h2
        have hx : x ∈ a :: rest := by
          cases hp : truthyNat pref with
          | false => rw [hp] at hf; simp at hf
          | true =>
              rw [hp] at hf
              simp only [if_pos] at hf
              exact List.mem_of_find?_eq_some hf
        refine ⟨x, ?_, h2.symm⟩
        rw [← mem_get_available_agents, hg]
        exact hx

theorem agents_with_load_eq_nil_iff {db : DB} {date sT eT : Nat}
    {teamId : Option Nat} {mt : Option String} :
    agents_with_load db date sT eT teamId mt = [] ↔
      ¬∃ u ∈ db.users, isCandidate db date sT eT teamId mt u = true ∧
        conflictingBookingsCount db u.id sT eT = 0 := by
  unfold agents_with_load
  rw [List.filterMap_eq_nil_iff]
  constructor
  · rintro h ⟨u, hu, hc, hz⟩
    have hm : u ∈ db.users.filter (isCandidate db date sT eT teamId mt) :=
      List.mem_filter.mpr ⟨hu, hc⟩
    have h2 := h u hm
    rw [if_pos (by simpa using hz)] at h2
    exact absurd h2 (by simp)
  · intro h u hm
    rw [List.mem_filter] at hm
    by_cases hz : (conflictingBookingsCount db u.id sT eT == 0) = true
    · exact absurd ⟨u, hm.1, hm.2, by simpa using hz⟩ h
    · rw [if_neg hz]

theorem assign_agent_eq_none_iff {db : DB} {date sT eT : Nat}
    {teamId : Option Nat} {mt : Option String} {pref : Option Nat} :
    assign_agent db date sT eT teamId mt pref = none ↔
      agents_with_load db date sT eT teamId mt = [] := by
  constructor
  · intro h
    rw [← get_available_agents_eq_nil]
    cases hg : get_available_agents db date sT eT teamId mt with
    | nil => rfl
    | cons a rest =>
        unfold assign_agent at h
        rw [hg] at h
        have h' : (match (if truthyNat pref then
            (a :: rest).find? (fun x => some x.agent.id == pref && decide (x.load < 5))
          else none) with
          | some x => some x.agent
          | none => some a.agent) = none := h
        rcases hf : (if truthyNat pref then
            (a :: rest).find? (fun x => some x.agent.id == pref && decide (x.load < 5))
          else none) with _ | x
        · rw [hf] at h'
          exact absurd (show some a.agent = none from h') (by simp)
        · rw [hf] at h'
          exact absurd (show some x.agent = none from h') (by simp)
  · intro h
    unfold assign_agent
    rw [show get_available_agents db date sT eT teamId mt = [] from
          get_available_agents_eq_nil.mpr h]

/-! ### C1 -/

/-- C1: for every database state, team, meeting type and requested window,
assign_agent never returns an agent with a {pending, confirmed} booking
overlapping `[start, end)` under the open-interval test, and it returns none
exactly when no candidate of step 1 survives conflict elimination. -/
theorem assign_agent_conflict_free (db : DB) (date sT eT : Nat)
    (teamId : Option Nat) (mt : Option String) (pref : Option Nat) :
    (assign_agent db date sT eT teamId mt pref = none ↔
      ¬∃ u ∈ db.users, isCandidate db date sT eT teamId mt u = true ∧
        conflictingBookingsCount db u.id sT eT = 0) ∧
    ∀ u, assign_agent db date sT eT teamId mt pref = some u →
      ∀ b ∈ db.bookings, b.hostId = u.id →
        (b.status = .pending ∨ b.status = .confirmed) →
        ¬(b.startTime < eT ∧ sT < b.endTime) := by
  constructor
  · rw [assign_agent_eq_none_iff]
    exact agents_with_load_eq_nil_iff
  · intro u h b hb hhost hstat
    obtain ⟨x, hx, rfl⟩ := assign_agent_mem h
    have hz := (mem_agents_with_load hx).2.2.1
    exact conflictCount_eq_zero_iff.mp hz b hb hhost hstat

/-- Sample database used for witness instantiations: one active user with a
Monday 09:00 to 12:00 availability, member of team 1, with one confirmed
booking 08:00 to 09:00 on the epoch Monday. -/
def wUser : User :=
  { id := 1, email := "a@x.io", username := "a", fullName := "Agent A",
    hashedPassword := "h", isActive := true }

def wAvail : Availability :=
  { id := 1, userId := 1, dayOfWeek := 0, startTime := 540, endTime := 720,
    isActive := true, slotDurationMinutes := 30, meetingType := some "general" }

def wBooking : Booking :=
  { hostId := 1, guestId := 2, title := "m", description := none,
    startTime := 480, endTime := 540, status := .confirmed,
    guestEmail := "g@x.io", guestName := "G" }

def wDb : DB :=
  { users := [wUser], availabilities := [wAvail],
    teamMembers := [{ teamId := 1, userId := 1, isActive := true }],
    teams := [{ id := 1, name := "T", isActive := true }],
    bookings := [wBooking] }

theorem assign_agent_conflict_free_witness :
    ¬(wBooking.startTime < 630 ∧ 600 < wBooking.endTime) :=
  (assign_agent_conflict_free wDb 0 600 630 (some 1) none none).2 wUser
    (by decide) wBooking (by decide) (by decide) (Or.inr (by decide))

/-! ### C4 -/

/-- C4: when preferred_agent_id names a surviving agent with fewer than 5
bookings that day, assign_agent returns exactly that agent regardless of
other candidates' scores; otherwise it returns the minimum-priority-score
survivor, ties broken by stable input order (first encountered). -/
theorem assign_agent_selection (db : DB) (date sT eT : Nat)
    (teamId : Option Nat) (mt : Option String) :
    (∀ p : Nat, p ≠ 0 →
      (∃ x ∈ get_available_agents db date sT eT teamId mt,
        x.agent.id = p ∧ x.load < 5) →
      ∃ y ∈ get_available_agents db date sT eT teamId mt,
        y.agent.id = p ∧ y.load < 5 ∧
          assign_agent db date sT eT teamId mt (some p) = some y.agent) ∧
    (∀ pref : Option Nat,
      (truthyNat pref = false ∨
        ∀ x ∈ get_available_agents db date sT eT teamId mt,
          ¬(some x.agent.id = pref ∧ x.load < 5)) →
      agents_with_load db date sT eT teamId mt ≠ [] →
      ∃ l1 x l2, agents_with_load db date sT eT teamId mt = l1 ++ x :: l2 ∧
        assign_agent db date sT eT teamId mt pref = some x.agent ∧
        (∀ y ∈ l1, x.priorityScore < y.priorityScore) ∧
        (∀ y ∈ l2, x.priorityScore ≤ y.priorityScore)) := by
  constructor
  · rintro p hp ⟨x, hx, hxid, hxload⟩
    have hfind : ((get_available_agents db date sT eT teamId mt).find?
        (fun x => some x.agent.id == some p && decide (x.load < 5))).isSome := by
      rw [List.find?_isSome]
      exact ⟨x, hx, by simp [hxid, hxload]⟩
    obtain ⟨y, hy⟩ := Option.isSome_iff_exists.mp hfind
    have hymem := List.mem_of_find?_eq_some hy
    have hyp := List.find?_some hy
    simp only [Bool.and_eq_true, beq_iff_eq, decide_eq_true_eq,
      Option.some.injEq] at hyp
    refine ⟨y, hymem, hyp.1, hyp.2, ?_⟩
    unfold assign_agent
    cases hg : get_available_agents db date sT eT teamId mt with
    | nil => rw [hg] at hymem; simp at hymem
    | cons a rest =>
        rw [hg] at hy
        have htr : truthyNat (some p) = true := by simp [truthyNat, hp]
        change (match (if truthyNat (some p) then
            (a :: rest).find? (fun x => some x.agent.id == some p && decide (x.load < 5))
          else none) with
          | some x => some x.agent
          | none => some a.agent) = some y.agent
        rw [if_pos htr, hy]
  · intro pref hcond hne
    obtain ⟨x0, hx0⟩ : ∃ x0, firstMinBy (fun z : AgentLoad => z.priorityScore)
        (agents_with_load db date sT eT teamId mt) = some x0 := by
      cases hfm : firstMinBy (fun z : AgentLoad => z.priorityScore)
          (agents_with_load db date sT eT teamId mt) with
      | none => exact absurd ((firstMinBy_eq_none _ _).mp hfm) hne
      | some z => exact ⟨z, rfl⟩
    obtain ⟨l1, l2, hsplit, hlt, hle⟩ := firstMinBy_split _ hx0
    have hhead : (get_available_agents db date sT eT teamId mt).head? = some x0 := by
      unfold get_available_agents
      rw [head?_insertionSort]
      exact hx0
    cases hg : get_available_agents db date sT eT teamId mt with
    | nil => rw [hg] at hhead; simp at hhead
    | cons a rest =>
        rw [hg] at hhead
        simp only [List.head?_cons, Option.some.injEq] at hhead
        subst hhead
        refine ⟨l1, a, l2, hsplit, ?_, hlt, hle⟩
        unfold assign_agent
        rw [hg]
        change (match (if truthyNat pref then
            (a :: rest).find? (fun x => some x.agent.id == pref && decide (x.load < 5))
          else none) with
          | some x => some x.agent
          | none => some a.agent) = some a.agent
        rcases hcond with hfalse | hnone
        · rw [hfalse]
          rfl
        · have hfn : (a :: rest).find?
              (fun x => some x.agent.id == pref && decide (x.load < 5)) = none := by
            rw [List.find?_eq_none]
            intro x hx
            have hnx := hnone x (by rw [hg]; exact hx)
            simp only [Bool.and_eq_true, beq_iff_eq, decide_eq_true_eq]
            exact fun hc => hnx hc
          cases htr : truthyNat pref with
          | false => rfl
          | true =>
              rw [hfn]
              rfl

theorem assign_agent_selection_witness :
    ∃ y ∈ get_available_agents wDb 0 600 630 (some 1) none,
      y.agent.id = 1 ∧ y.load < 5 ∧
        assign_agent wDb 0 600 630 (some 1) none (some 1) = some y.agent :=
  (assign_agent_selection wDb 0 600 630 (some 1) none).1 1 (by decide) (by decide)

/-! ### C8 -/

/-- Spec-side reading of "meeting_type is set and differs from general": a
non-null, non-empty tag other than "general". -/
def specMeetingTypeBonus : Option String → Bool
  | none => false
  | some s => !(s == "") && !(s == "general")

/-- Spec-side scoring formula of section 4.3 step 3: today_booking_count
minus 0.1 per availability-window hour, minus 0.5 for a non-general meeting
type. -/
def spec_priority_score (todayCount : Nat) (a : Availability) : ℚ :=
  (todayCount : ℚ) - (1 / 10) * (((a.endTime : ℚ) - (a.startTime : ℚ)) / 60) -
    (if specMeetingTypeBonus a.meetingType then 1 / 2 else 0)

theorem bonus_condition_eq (mt : Option String) :
    (truthyStr mt && !(mt == some "general")) = specMeetingTypeBonus mt := by
  cases mt with
  | none => rfl
  | some s => rfl

theorem calculate_eq_spec (load : Nat) (a : Availability) :
    calculate_priority_score load (some a) = spec_priority_score load a := by
  have h : calculate_priority_score load (some a) =
      (if (truthyStr a.meetingType && !(a.meetingType == some "general")) = true
       then ((load : ℚ) - ((a.endTime : ℚ) - (a.startTime : ℚ)) / 60 * (1 / 10)) - 1 / 2
       else ((load : ℚ) - ((a.endTime : ℚ) - (a.startTime : ℚ)) / 60 * (1 / 10))) := rfl
  rw [h, bonus_condition_eq]
  unfold spec_priority_score
  cases hb : specMeetingTypeBonus a.meetingType with
  | false =>
      rw [if_neg Bool.false_ne_true, if_neg Bool.false_ne_true]
      ring
  | true =>
      rw [if_pos rfl, if_pos rfl]
      ring

/-- C8: for every surviving candidate the priority score used for selection
equals today_booking_count − 0.1 × availability_window_hours − (0.5 when the
scoring availability's meeting_type is set and differs from "general"),
where today_booking_count counts the agent's {pending, confirmed} bookings
starting on the calendar day of the requested start (the `date` argument,
which the callers pass as `start_time.date()`). -/
theorem priority_score_formula (db : DB) (date sT eT : Nat)
    (teamId : Option Nat) (mt : Option String) (x : AgentLoad)
    (hx : x ∈ get_available_agents db date sT eT teamId mt)
    (hdate : date = sT / 1440) :
    ∃ a, scoringAvailability db x.agent.id date = some a ∧
      x.availability = some a ∧
      x.priorityScore = spec_priority_score x.load a ∧
      x.load = (db.bookings.filter fun b =>
        b.hostId == x.agent.id && pendingOrConfirmed b.status &&
          (b.startTime / 1440 == sT / 1440)).length := by
  have hparts := mem_agents_with_load (mem_get_available_agents.mp hx)
  obtain ⟨hmem, hcand, hconf, hload, havail, hscore⟩ := hparts
  have hsome : (scoringAvailability db x.agent.id date).isSome := by
    unfold isCandidate at hcand
    simp only [Bool.and_eq_true] at hcand
    obtain ⟨⟨_, hany⟩, _⟩ := hcand
    rw [List.any_eq_true] at hany
    obtain ⟨a0, ha0, hrow⟩ := hany
    unfold availabilityRowMatches at hrow
    simp only [Bool.and_eq_true] at hrow
    unfold scoringAvailability
    rw [List.find?_isSome]
    refine ⟨a0, ha0, ?_⟩
    simp only [Bool.and_eq_true]
    exact ⟨⟨hrow.1.1.1.1.1, hrow.1.1.1.1.2⟩, hrow.1.1.1.2⟩
  obtain ⟨a, ha⟩ := Option.isSome_iff_exists.mp hsome
  refine ⟨a, ha, by rw [havail, ha], ?_, ?_⟩
  · rw [hscore, havail, ha]
    exact calculate_eq_spec x.load a
  · rw [hload]
    unfold todayBookingsCount
    congr 1
    apply List.filter_congr
    intro b _
    rw [Bool.eq_iff_iff]
    simp only [Bool.and_eq_true, beq_iff_eq, decide_eq_true_eq]
    subst hdate
    constructor
    · rintro ⟨⟨⟨h1, h2⟩, h3⟩, h4⟩
      exact ⟨⟨h1, h4⟩, by omega⟩
    · rintro ⟨⟨h1, h4⟩, h2⟩
      exact ⟨⟨⟨h1, by omega⟩, by omega⟩, h4⟩

/-- The single entry produced by get_available_agents on the witness
database, with its fields left as the source computations (ℚ arithmetic is
not kernel-evaluable, so the score is kept symbolic). -/
def wAgentLoad : AgentLoad :=
  { agent := wUser, load := todayBookingsCount wDb 1 0,
    availability := scoringAvailability wDb 1 0,
    priorityScore :=
      calculate_priority_score (todayBookingsCount wDb 1 0) (scoringAvailability wDb 1 0) }

theorem priority_score_formula_witness :
    ∃ a, scoringAvailability wDb wAgentLoad.agent.id 0 = some a ∧
      wAgentLoad.availability = some a ∧
      wAgentLoad.priorityScore = spec_priority_score wAgentLoad.load a ∧
      wAgentLoad.load = (wDb.bookings.filter fun b =>
        b.hostId == wAgentLoad.agent.id && pendingOrConfirmed b.status &&
          (b.startTime / 1440 == 600 / 1440)).length :=
  priority_score_formula wDb 0 600 630 (some 1) none wAgentLoad
    (by rw [show get_available_agents wDb 0 600 630 (some 1) none = [wAgentLoad] from rfl]
        exact List.mem_cons_self _ _)
    rfl

/-! ### C3 -/

def c3Avail : Availability :=
  { id := 1, userId := 1, dayOfWeek := 0, startTime := 540, endTime := 630,
    isActive := true, slotDurationMinutes := 60, meetingType := some "general" }

def c3Db : DB :=
  { users := [wUser], availabilities := [c3Avail], teamMembers := [],
    teams := [], bookings := [] }

/-- C3 counterexample: with slot_duration_minutes configured to 60 and a
90-minute window 09:00 to 10:30, the claim predicts floor(90/60) = 1 slot,
but the code steps by the literal 30 and emits 3 slots. -/
theorem slot_duration_config_ignored :
    (c3Db.availabilities.map fun a => a.slotDurationMinutes) = [60] ∧
    (get_available_slots c3Db 1 0).length = 3 ∧
    (630 - 540) / 60 = 1 ∧ (3 : Nat) ≠ 1 := by decide

/-- C3 (amended): slot generation walks the window in increments of the fixed
constant 30 (slot_duration_minutes is ignored by both loops), stops once
current + 30 > window_end, yields exactly floor((e − s) / 30) candidate
slots, none crossing the window boundary, and an inverted or empty window
yields the empty sequence. -/
theorem generate_slots_count (date : Nat) (bs : List Booking) (s e : Nat) :
    (generate_slots date bs s e).length = (e - s) / 30 ∧
    (slotWalk s e).length = (e - s) / 30 ∧
    (∀ slot ∈ generate_slots date bs s e,
      s ≤ slot.startMinutes ∧ slot.endMinutes = slot.startMinutes + 30 ∧
        slot.endMinutes ≤ e) ∧
    (e ≤ s → generate_slots date bs s e = []) := by
  refine ⟨?_, slotWalk_length s e, ?_, ?_⟩
  · unfold generate_slots
    rw [List.length_map, slotWalk_length]
  · intro slot hs
    unfold generate_slots at hs
    obtain ⟨c, hc, rfl⟩ := List.mem_map.mp hs
    have hw := mem_slotWalk hc
    exact ⟨hw.1, rfl, hw.2⟩
  · intro h
    unfold generate_slots
    rw [slotWalk_eq_nil_of_ge h]
    rfl

theorem generate_slots_count_witness :
    540 ≤ 540 ∧ 570 = 540 + 30 ∧ 570 ≤ 630 :=
  (generate_slots_count 0 [] 540 630).2.2.1
    { startMinutes := 540, endMinutes := 570, isAvailable := true } (by decide)

/-! ### C5 -/

def mAvail : Availability :=
  { id := 1, userId := 1, dayOfWeek := 0, startTime := 540, endTime := 720,
    isActive := true, slotDurationMinutes := 30, meetingType := some "general" }

/-- A confirmed booking starting Sunday 23:00 and ending Monday 09:30 (the
Monday is day 7 of the model, whose midnight is minute 10080). -/
def mBooking : Booking :=
  { hostId := 1, guestId := 2, title := "late", description := none,
    startTime := 10020, endTime := 10650, status := .confirmed,
    guestEmail := "g@x.io", guestName := "G" }

def c5MidnightDb : DB :=
  { users := [wUser], availabilities := [mAvail], teamMembers := [],
    teams := [], bookings := [mBooking] }

/-- C5 counterexample: the Monday 09:00 to 09:30 slot is marked available
although it overlaps a confirmed booking of the same host — the booking
starts before the date's midnight, so the day query never fetches it. -/
theorem slot_available_despite_overlap :
    (get_available_slots c5MidnightDb 1 7).head? =
      some { startMinutes := 540, endMinutes := 570, isAvailable := true } ∧
    mBooking ∈ c5MidnightDb.bookings ∧
    mBooking.hostId = 1 ∧ mBooking.status = .confirmed ∧
    1440 * 7 + 540 < mBooking.endTime ∧
    mBooking.startTime < 1440 * 7 + 570 := by decide

def c5ScenBooking : Booking :=
  { hostId := 1, guestId := 2, title := "m", description := none,
    startTime := 600, endTime := 630, status := .confirmed,
    guestEmail := "g@x.io", guestName := "G" }

def c5ScenarioDb : DB :=
  { users := [wUser], availabilities := [mAvail], teamMembers := [],
    teams := [], bookings := [c5ScenBooking] }

theorem slotIsFree_day_iff (db : DB) (uid date c : Nat) :
    slotIsFree date (dayBookingsQuery db uid date) c = true ↔
      ∀ b ∈ db.bookings, b.hostId = uid →
        (b.status = .pending ∨ b.status = .confirmed) →
        1440 * date ≤ b.startTime → b.startTime < 1440 * date + 1440 →
        ¬(1440 * date + c < b.endTime ∧ b.startTime < 1440 * date + (c + 30)) := by
  unfold slotIsFree
  rw [List.all_eq_true]
  constructor
  · intro h b hb hhost hstat h1 h2
    have hbmem : b ∈ dayBookingsQuery db uid date := by
      unfold dayBookingsQuery
      rw [List.mem_filter]
      refine ⟨hb, ?_⟩
      simp only [Bool.and_eq_true, beq_iff_eq, decide_eq_true_eq]
      exact ⟨⟨⟨hhost, h1⟩, h2⟩, (pendingOrConfirmed_iff _).mpr hstat⟩
    have hd := h b hbmem
    simp at hd
    omega
  · intro h b hb
    unfold dayBookingsQuery at hb
    rw [List.mem_filter] at hb
    obtain ⟨hb0, hcond⟩ := hb
    simp only [Bool.and_eq_true, beq_iff_eq, decide_eq_true_eq] at hcond
    have hneg := h b hb0 hcond.1.1.1 ((pendingOrConfirmed_iff _).mp hcond.2)
      hcond.1.1.2 hcond.1.2
    simp
    omega

/-- C5 (amended): a generated slot is marked available iff it has zero
overlap, under the open-interval test, with every {pending, confirmed}
booking of the user that starts within the requested date; bookings starting
outside the date (e.g. before its midnight) are not consulted.  The concrete
09:00 to 12:00 scenario with one confirmed 10:00 to 10:30 booking yields 6
slots with exactly the 10:00 slot unavailable. -/
theorem slots_available_iff (db : DB) (uid date : Nat) :
    (∀ slot ∈ get_available_slots db uid date,
      slot.isAvailable = true ↔
        ∀ b ∈ db.bookings, b.hostId = uid →
          (b.status = .pending ∨ b.status = .confirmed) →
          1440 * date ≤ b.startTime → b.startTime < 1440 * date + 1440 →
          ¬(1440 * date + slot.startMinutes < b.endTime ∧
            b.startTime < 1440 * date + slot.endMinutes)) ∧
    get_available_slots c5ScenarioDb 1 0 =
      [{ startMinutes := 540, endMinutes := 570, isAvailable := true },
       { startMinutes := 570, endMinutes := 600, isAvailable := true },
       { startMinutes := 600, endMinutes := 630, isAvailable := false },
       { startMinutes := 630, endMinutes := 660, isAvailable := true },
       { startMinutes := 660, endMinutes := 690, isAvailable := true },
       { startMinutes := 690, endMinutes := 720, isAvailable := true }] := by
  constructor
  · intro slot hs
    obtain ⟨a, ha, hslot⟩ := List.mem_flatMap.mp hs
    unfold generate_slots at hslot
    obtain ⟨c, hc, rfl⟩ := List.mem_map.mp hslot
    exact slotIsFree_day_iff db uid date c
  · decide

theorem slots_available_iff_witness :
    ({ startMinutes := 600, endMinutes := 630, isAvailable := false } :
        AvailabilitySlot).isAvailable = true ↔
      ∀ b ∈ c5ScenarioDb.bookings, b.hostId = 1 →
        (b.status = .pending ∨ b.status = .confirmed) →
        1440 * 0 ≤ b.startTime → b.startTime < 1440 * 0 + 1440 →
        ¬(1440 * 0 + 600 < b.endTime ∧ b.startTime < 1440 * 0 + 630) :=
  (slots_available_iff c5ScenarioDb 1 0).1
    { startMinutes := 600, endMinutes := 630, isAvailable := false } (by decide)

/-! ### C6 -/

def c6Db : DB :=
  { users := [wUser], availabilities := [mAvail],
    teamMembers := [{ teamId := 1, userId := 1, isActive := true }],
    teams := [{ id := 1, name := "T", isActive := true }],
    bookings := [mBooking] }

/-- C6 counterexample: the team aggregator emits the Monday 09:00 to 09:30
slot as available although it overlaps a confirmed booking of that member —
the booking starts before the date, so the aggregator's day query ignores
it. -/
theorem team_slot_emitted_despite_overlap :
    (get_team_availability c6Db 1 7).head? =
      some { userId := 1, userName := "Agent A", startMinutes := 540,
             endMinutes := 570, meetingType := some "general",
             slotDurationMinutes := 30 } ∧
    mBooking ∈ c6Db.bookings ∧ mBooking.hostId = 1 ∧
    mBooking.status = .confirmed ∧
    1440 * 7 + 540 < mBooking.endTime ∧
    mBooking.startTime < 1440 * 7 + 570 := by decide

/-- C6 (amended): for each (user, availability) pair the team aggregator
consults exactly the member's {pending, confirmed} bookings starting within
the date — every emitted slot is conflict-free with respect to those — while
a booking that starts before the date but extends into it is not fetched and
does not render the slots it overlaps unavailable. -/
theorem team_slots_conflict_free (db : DB) (teamId date : Nat) :
    ∀ s ∈ get_team_availability db teamId date,
      ∀ b ∈ db.bookings, b.hostId = s.userId →
        (b.status = .pending ∨ b.status = .confirmed) →
        1440 * date ≤ b.startTime → b.startTime < 1440 * date + 1440 →
        ¬(1440 * date + s.startMinutes < b.endTime ∧
          b.startTime < 1440 * date + s.endMinutes) := by
  intro s hs b hb hhost hstat h1 h2 hover
  obtain ⟨p, hp, hps⟩ := List.mem_flatMap.mp hs
  unfold team_member_slots at hps
  obtain ⟨c, hc, hcs⟩ := List.mem_filterMap.mp hps
  by_cases hfree : slotIsFree date (teamDayBookingsQuery db p.1.id date) c = true
  · rw [if_pos hfree] at hcs
    injection hcs with hcs
    subst hcs
    exact (slotIsFree_day_iff db p.1.id date c).mp hfree b hb hhost hstat h1 h2 hover
  · rw [if_neg hfree] at hcs
    exact absurd hcs (by simp)

theorem team_slots_conflict_free_witness :
    ¬(1440 * 0 + 540 < wBooking.endTime ∧
      wBooking.startTime < 1440 * 0 + 570) :=
  team_slots_conflict_free wDb 1 0
    { userId := 1, userName := "Agent A", startMinutes := 540,
      endMinutes := 570, meetingType := some "general",
      slotDurationMinutes := 30 } (by decide)
    wBooking (by decide) (by decide) (Or.inr (by decide)) (by decide) (by decide)

/-! ### C7 -/

/-- C7: for a fixed member, date and set of that member's bookings, the team
path emits exactly the slots of the single-user generation whose
availability flag is True (compared on their time data), and the two paths'
booking queries fetch the same rows; the asymmetry is only in emission. -/
theorem team_emits_available_slots (date : Nat) (u : User) (a : Availability)
    (bs : List Booking) :
    ((team_member_slots date u a bs).map fun s => (s.startMinutes, s.endMinutes)) =
      (((generate_slots date bs a.startTime a.endTime).filter
          fun s => s.isAvailable).map fun s => (s.startMinutes, s.endMinutes)) ∧
    (∀ db : DB, ∀ uid d : Nat,
      teamDayBookingsQuery db uid d = dayBookingsQuery db uid d) := by
  constructor
  · unfold team_member_slots generate_slots
    induction slotWalk a.startTime a.endTime with
    | nil => rfl
    | cons c t ih =>
        simp only [List.filterMap_cons, List.map_cons, List.filter_cons]
        cases hfree : slotIsFree date bs c with
        | false => simpa [hfree] using ih
        | true => simpa [hfree] using ih
  · intro db uid d
    rfl

/-! ### C2 -/

theorem hostConflictExists_iff {db : DB} {uid sT eT : Nat} :
    hostConflictExists db uid sT eT = true ↔
      ∃ b ∈ db.bookings, b.hostId = uid ∧
        (b.status = .pending ∨ b.status = .confirmed) ∧
        b.startTime < eT ∧ sT < b.endTime := by
  unfold hostConflictExists
  rw [List.any_eq_true]
  constructor
  · rintro ⟨b, hb, hp⟩
    simp only [Bool.and_eq_true, beq_iff_eq, decide_eq_true_eq] at hp
    exact ⟨b, hb, hp.1.1.1, (pendingOrConfirmed_iff _).mp hp.2, hp.1.1.2, hp.1.2⟩
  · rintro ⟨b, hb, h1, h2, h3, h4⟩
    refine ⟨b, hb, ?_⟩
    simp only [Bool.and_eq_true, beq_iff_eq, decide_eq_true_eq]
    exact ⟨⟨⟨h1, h3⟩, h4⟩, (pendingOrConfirmed_iff _).mpr h2⟩

theorem hostConflictExists_eq_false_iff {db : DB} {uid sT eT : Nat} :
    hostConflictExists db uid sT eT = false ↔
      conflictingBookingsCount db uid sT eT = 0 := by
  unfold hostConflictExists conflictingBookingsCount
  rw [List.any_eq_false, List.length_eq_zero, List.filter_eq_nil_iff]

theorem hostConflictExists_congr {db db' : DB} (h : db'.bookings = db.bookings)
    (uid sT eT : Nat) :
    hostConflictExists db' uid sT eT = hostConflictExists db uid sT eT := by
  unfold hostConflictExists
  rw [h]

/-- The booking-table invariant of the spec: no two {pending, confirmed}
rows of one host overlap under the open-interval test. -/
def BookingsNoOverlap (l : List Booking) : Prop :=
  l.Pairwise fun b1 b2 => b1.hostId = b2.hostId →
    pendingOrConfirmed b1.status = true → pendingOrConfirmed b2.status = true →
    ¬(b1.startTime < b2.endTime ∧ b2.startTime < b1.endTime)

theorem findOrCreateGuest_users (db : DB) (email name : String) :
    (findOrCreateGuest db email name).2.users = db.users ∨
      (findOrCreateGuest db email name).2.users =
        db.users ++ [(findOrCreateGuest db email name).1] := by
  unfold findOrCreateGuest
  cases db.users.find? (fun u => u.email == email) with
  | none => exact Or.inr rfl
  | some g => exact Or.inl rfl

/-- C2: create_booking rejects with "Time slot is already booked" iff an
existing {pending, confirmed} booking of the same host overlaps the
requested window; otherwise it persists a pending booking with exactly the
requested start and end for that host, so the per-host no-overlap invariant
is preserved; the insert step of book_with_team likewise persists the
requested window for the assigned agent. -/
theorem create_booking_conflict_iff (db : DB) (req : BookingCreate)
    (hhost : ∃ h ∈ db.users, h.id = req.hostId) :
    ((create_booking db req).1 = .error "Time slot is already booked" ↔
      ∃ b ∈ db.bookings, b.hostId = req.hostId ∧
        (b.status = .pending ∨ b.status = .confirmed) ∧
        b.startTime < req.endTime ∧ req.startTime < b.endTime) ∧
    ((¬∃ b ∈ db.bookings, b.hostId = req.hostId ∧
        (b.status = .pending ∨ b.status = .confirmed) ∧
        b.startTime < req.endTime ∧ req.startTime < b.endTime) →
      ∃ nb, (create_booking db req).1 = .ok nb ∧
        nb.hostId = req.hostId ∧ nb.startTime = req.startTime ∧
        nb.endTime = req.endTime ∧ nb.status = .pending ∧
        (create_booking db req).2.bookings = db.bookings ++ [nb]) ∧
    (BookingsNoOverlap db.bookings →
      BookingsNoOverlap (create_booking db req).2.bookings) ∧
    (∀ (tid : Nat) (treq : TeamBookingCreate) (u : User),
      (∃ t ∈ db.teams, t.id = tid ∧ t.isActive) →
      assign_agent db (treq.startTime / 1440) treq.startTime treq.endTime
        (some tid) treq.meetingType none = some u →
      ∃ nb, (book_with_team db tid treq).1 = .ok nb ∧
        nb.hostId = u.id ∧ nb.startTime = treq.startTime ∧
        nb.endTime = treq.endTime ∧ nb.status = .pending ∧
        (book_with_team db tid treq).2.bookings = db.bookings ++ [nb]) := by
  obtain ⟨h0, hh0⟩ : ∃ h0, db.users.find? (fun u => u.id == req.hostId) = some h0 := by
    obtain ⟨h1, hm, hid⟩ := hhost
    exact Option.isSome_iff_exists.mp
      (List.find?_isSome.mpr ⟨h1, hm, by simp [hid]⟩)
  have hgb := findOrCreateGuest_bookings db req.guestEmail req.guestName
  have hcc := hostConflictExists_congr hgb req.hostId req.startTime req.endTime
  refine ⟨?_, ?_, ?_, ?_⟩
  · cases hconf : hostConflictExists db req.hostId req.startTime req.endTime with
    | true =>
        have hres : (create_booking db req).1 = .error "Time slot is already booked" := by
          simp only [create_booking, hh0]
          rw [if_pos (by rw [hcc, hconf])]
        rw [hres]
        simp only [true_iff]
        exact hostConflictExists_iff.mp hconf
    | false =>
        have hres : (create_booking db req).1 = .ok
            { hostId := req.hostId, guestId := (findOrCreateGuest db req.guestEmail req.guestName).1.id,
              title := req.title, description := req.description,
              startTime := req.startTime, endTime := req.endTime, status := .pending,
              guestEmail := req.guestEmail, guestName := req.guestName } := by
          simp only [create_booking, hh0]
          rw [if_neg (by rw [hcc, hconf]; exact Bool.false_ne_true)]
        rw [hres]
        constructor
        · intro hcontra
          exact absurd hcontra (by simp)
        · intro hex
          exact absurd (hostConflictExists_iff.mpr hex) (by rw [hconf]; simp)
  · intro hno
    have hconf : hostConflictExists db req.hostId req.startTime req.endTime = false := by
      cases hc : hostConflictExists db req.hostId req.startTime req.endTime with
      | false => rfl
      | true => exact absurd (hostConflictExists_iff.mp hc) hno
    refine ⟨{ hostId := req.hostId,
              guestId := (findOrCreateGuest db req.guestEmail req.guestName).1.id,
              title := req.title, description := req.description,
              startTime := req.startTime, endTime := req.endTime, status := .pending,
              guestEmail := req.guestEmail, guestName := req.guestName },
            ?_, rfl, rfl, rfl, rfl, ?_⟩
    · simp only [create_booking, hh0]
      rw [if_neg (by rw [hcc, hconf]; exact Bool.false_ne_true)]
    · simp only [create_booking, hh0]
      rw [if_neg (by rw [hcc, hconf]; exact Bool.false_ne_true)]
      simp only [hgb]
  · intro hinv
    cases hconf : hostConflictExists db req.hostId req.startTime req.endTime with
    | true =>
        have : (create_booking db req).2.bookings = db.bookings := by
          simp only [create_booking, hh0]
          rw [if_pos (by rw [hcc, hconf])]
          exact hgb
        rw [BookingsNoOverlap, this]
        exact hinv
    | false =>
        have hbk : (create_booking db req).2.bookings = db.bookings ++
            [{ hostId := req.hostId,
               guestId := (findOrCreateGuest db req.guestEmail req.guestName).1.id,
               title := req.title, description := req.description,
               startTime := req.startTime, endTime := req.endTime, status := .pending,
               guestEmail := req.guestEmail, guestName := req.guestName }] := by
          simp only [create_booking, hh0]
          rw [if_neg (by rw [hcc, hconf]; exact Bool.false_ne_true)]
          simp only [hgb]
        rw [BookingsNoOverlap, hbk, List.pairwise_append]
        refine ⟨hinv, List.pairwise_singleton _ _, ?_⟩
        intro b hb nb hnb
        rw [List.mem_singleton] at hnb
        subst hnb
        intro hhostEq hpc1 hpc2 hover
        have hall := List.any_eq_false.mp hconf b hb
        simp only [Bool.and_eq_true, beq_iff_eq, decide_eq_true_eq, not_and] at hall
        exact (hall ⟨⟨hhostEq, hover.1⟩, hover.2⟩) hpc1
  · intro tid treq u hteam hassign
    obtain ⟨t0, ht0⟩ : ∃ t0, db.teams.find? (fun t => t.id == tid && t.isActive) = some t0 := by
      obtain ⟨t1, hm, hid, hact⟩ := hteam
      exact Option.isSome_iff_exists.mp
        (List.find?_isSome.mpr ⟨t1, hm, by simp [hid, hact]⟩)
    obtain ⟨x, hx, rfl⟩ := assign_agent_mem hassign
    have hz := (mem_agents_with_load hx).2.2.1
    have hconf : hostConflictExists db x.agent.id treq.startTime treq.endTime = false :=
      hostConflictExists_eq_false_iff.mpr hz
    have hgb' := findOrCreateGuest_bookings db treq.guestEmail treq.guestName
    have hcc' := hostConflictExists_congr hgb' x.agent.id treq.startTime treq.endTime
    refine ⟨{ hostId := x.agent.id,
              guestId := (findOrCreateGuest db treq.guestEmail treq.guestName).1.id,
              title := treq.title, description := treq.description,
              startTime := treq.startTime, endTime := treq.endTime, status := .pending,
              guestEmail := treq.guestEmail, guestName := treq.guestName },
            ?_, rfl, rfl, rfl, rfl, ?_⟩
    · simp only [book_with_team, ht0, hassign]
      rw [if_neg (by rw [hcc', hconf]; exact Bool.false_ne_true)]
    · simp only [book_with_team, ht0, hassign]
      rw [if_neg (by rw [hcc', hconf]; exact Bool.false_ne_true)]
      simp only [hgb']

def wReq : BookingCreate :=
  { title := "t", description := none, startTime := 500, endTime := 550,
    guestEmail := "new@x.io", guestName := "N", hostId := 1 }

theorem create_booking_conflict_iff_witness :
    (create_booking wDb wReq).1 = .error "Time slot is already booked" :=
  ((create_booking_conflict_iff wDb wReq (by decide)).1).mpr (by decide)

/-! ### C9 -/

theorem findOrCreateGuest_fresh {db : DB} {email name : String}
    (h : ∀ v ∈ db.users, v.email ≠ email) :
    (findOrCreateGuest db email name).2.users =
        db.users ++ [(findOrCreateGuest db email name).1] ∧
      (findOrCreateGuest db email name).1.email = email := by
  have hf : db.users.find? (fun u => u.email == email) = none := by
    rw [List.find?_eq_none]
    intro v hv
    simpa using h v hv
  unfold findOrCreateGuest
  rw [hf]
  exact ⟨rfl, rfl⟩

/-- C9: when a booking request carries a guest email with no existing user,
both endpoints insert and commit a guest User row before the host conflict
check; if the request then fails with "Time slot is already booked", the
guest row remains persisted (and on the team path the guest row persists
whatever the outcome after assignment), so the failing operation does not
leave the store unchanged. -/
theorem guest_persisted_on_failure :
    (∀ (db : DB) (req : BookingCreate),
      (∀ v ∈ db.users, v.email ≠ req.guestEmail) →
      (∃ h ∈ db.users, h.id = req.hostId) →
      (∃ b ∈ db.bookings, b.hostId = req.hostId ∧
        (b.status = .pending ∨ b.status = .confirmed) ∧
        b.startTime < req.endTime ∧ req.startTime < b.endTime) →
      (create_booking db req).1 = .error "Time slot is already booked" ∧
      ∃ g, (create_booking db req).2.users = db.users ++ [g] ∧
        g.email = req.guestEmail) ∧
    (∀ (db : DB) (tid : Nat) (treq : TeamBookingCreate) (u : User),
      (∃ t ∈ db.teams, t.id = tid ∧ t.isActive) →
      assign_agent db (treq.startTime / 1440) treq.startTime treq.endTime
        (some tid) treq.meetingType none = some u →
      (∀ v ∈ db.users, v.email ≠ treq.guestEmail) →
      ∃ g, (book_with_team db tid treq).2.users = db.users ++ [g] ∧
        g.email = treq.guestEmail) := by
  constructor
  · intro db req hfresh hhost hconfl
    obtain ⟨h0, hh0⟩ : ∃ h0, db.users.find? (fun u => u.id == req.hostId) = some h0 := by
      obtain ⟨h1, hm, hid⟩ := hhost
      exact Option.isSome_iff_exists.mp
        (List.find?_isSome.mpr ⟨h1, hm, by simp [hid]⟩)
    have hgf := @findOrCreateGuest_fresh db req.guestEmail req.guestName hfresh
    have hgb := findOrCreateGuest_bookings db req.guestEmail req.guestName
    have hcc := hostConflictExists_congr hgb req.hostId req.startTime req.endTime
    have hconf : hostConflictExists db req.hostId req.startTime req.endTime = true :=
      hostConflictExists_iff.mpr hconfl
    constructor
    · simp only [create_booking, hh0]
      rw [if_pos (by rw [hcc, hconf])]
    · refine ⟨(findOrCreateGuest db req.guestEmail req.guestName).1, ?_, hgf.2⟩
      simp only [create_booking, hh0]
      rw [if_pos (by rw [hcc, hconf])]
      exact hgf.1
  · intro db tid treq u hteam hassign hfresh
    obtain ⟨t0, ht0⟩ : ∃ t0, db.teams.find? (fun t => t.id == tid && t.isActive) = some t0 := by
      obtain ⟨t1, hm, hid, hact⟩ := hteam
      exact Option.isSome_iff_exists.mp
        (List.find?_isSome.mpr ⟨t1, hm, by simp [hid, hact]⟩)
    have hgf := @findOrCreateGuest_fresh db treq.guestEmail treq.guestName hfresh
    refine ⟨(findOrCreateGuest db treq.guestEmail treq.guestName).1, ?_, hgf.2⟩
    simp only [book_with_team, ht0, hassign]
    cases hconf : hostConflictExists (findOrCreateGuest db treq.guestEmail treq.guestName).2
        u.id treq.startTime treq.endTime with
    | true =>
        rw [if_pos rfl]
        exact hgf.1
    | false =>
        rw [if_neg Bool.false_ne_true]
        exact hgf.1

theorem guest_persisted_on_failure_witness :
    (create_booking wDb wReq).1 = .error "Time slot is already booked" ∧
      ∃ g, (create_booking wDb wReq).2.users = wDb.users ++ [g] ∧
        g.email = wReq.guestEmail :=
  guest_persisted_on_failure.1 wDb wReq (by decide) (by decide) (by decide)

/-! ### C10 -/

def c10Db : DB :=
  { users := [wUser], availabilities := [mAvail], teamMembers := [],
    teams := [], bookings := [] }

/-- Update request inverting the window: start 12:00, end 09:00. -/
def c10Upd : AvailabilityUpdate :=
  { dayOfWeek := none, startTime := some 720, endTime := some 540,
    isActive := none, slotDurationMinutes := none, meetingType := none }

def c10DupDb : DB :=
  { users := [wUser],
    availabilities := [mAvail,
      { id := 2, userId := 1, dayOfWeek := 1, startTime := 540, endTime := 720,
        isActive := true, slotDurationMinutes := 30, meetingType := some "general" }],
    teamMembers := [], teams := [], bookings := [] }

/-- Update request moving row 2 onto the already-occupied Monday. -/
def c10DayUpd : AvailabilityUpdate :=
  { dayOfWeek := some 0, startTime := none, endTime := none,
    isActive := none, slotDurationMinutes := none, meetingType := none }

/-- C10: create_availability enforces start < end and one active row per
(user, day), while update_availability applies every provided field with no
validation, so updates preserve neither invariant: an inverted window
introduced by update is stored and makes slot generation return the empty
sequence for that row, and an update can produce two active rows for one
(user, day). -/
theorem availability_update_skips_validation :
    (∀ (db : DB) (uid : Nat) (req : AvailabilityCreate),
      0 ≤ req.startHour → req.startHour ≤ 23 →
      0 ≤ req.startMinute → req.startMinute ≤ 59 →
      0 ≤ req.endHour → req.endHour ≤ 23 →
      0 ≤ req.endMinute → req.endMinute ≤ 59 →
      (req.endHour * 60 + req.endMinute).toNat ≤
        (req.startHour * 60 + req.startMinute).toNat →
      (create_availability db uid req).1 = .error "Start time must be before end time" ∧
      (create_availability db uid req).2 = db) ∧
    (∀ (db : DB) (uid : Nat) (req : AvailabilityCreate),
      0 ≤ req.startHour → req.startHour ≤ 23 →
      0 ≤ req.startMinute → req.startMinute ≤ 59 →
      0 ≤ req.endHour → req.endHour ≤ 23 →
      0 ≤ req.endMinute → req.endMinute ≤ 59 →
      (req.startHour * 60 + req.startMinute).toNat <
        (req.endHour * 60 + req.endMinute).toNat →
      (∃ a ∈ db.availabilities, a.userId = uid ∧
        a.dayOfWeek = req.dayOfWeek ∧ a.isActive) →
      (create_availability db uid req).1 = .error "Availability already exists for this day" ∧
      (create_availability db uid req).2 = db) ∧
    (∀ (db : DB) (uid aid : Nat) (r : AvailabilityUpdate) (a : Availability),
      db.availabilities.find? (fun x => x.id == aid && x.userId == uid) = some a →
      (update_availability db uid aid r).1 = .ok (applyAvailabilityUpdate a r) ∧
      (∀ s, r.startTime = some s → (applyAvailabilityUpdate a r).startTime = s) ∧
      (∀ e, r.endTime = some e → (applyAvailabilityUpdate a r).endTime = e) ∧
      (∀ d, r.dayOfWeek = some d → (applyAvailabilityUpdate a r).dayOfWeek = d)) ∧
    ((update_availability c10Db 1 1 c10Upd).1 =
        .ok (applyAvailabilityUpdate mAvail c10Upd) ∧
      (applyAvailabilityUpdate mAvail c10Upd).startTime = 720 ∧
      (applyAvailabilityUpdate mAvail c10Upd).endTime = 540 ∧
      get_available_slots (update_availability c10Db 1 1 c10Upd).2 1 0 = []) ∧
    (((update_availability c10DupDb 1 2 c10DayUpd).2.availabilities.filter
        fun a => a.userId == 1 && a.dayOfWeek == 0 && a.isActive).length = 2) := by
  refine ⟨?_, ?_, ?_, ⟨rfl, rfl, rfl, by decide⟩, by decide⟩
  · intro db uid req h1 h2 h3 h4 h5 h6 h7 h8 hord
    have hb : (decide (0 ≤ req.startHour) && decide (req.startHour ≤ 23) &&
        decide (0 ≤ req.startMinute) && decide (req.startMinute ≤ 59) &&
        decide (0 ≤ req.endHour) && decide (req.endHour ≤ 23) &&
        decide (0 ≤ req.endMinute) && decide (req.endMinute ≤ 59)) = true := by
      simp only [Bool.and_eq_true, decide_eq_true_eq]
      exact ⟨⟨⟨⟨⟨⟨⟨h1, h2⟩, h3⟩, h4⟩, h5⟩, h6⟩, h7⟩, h8⟩
    unfold create_availability
    rw [hb]
    rw [if_neg (by simp)]
    rw [if_pos hord]
    exact ⟨rfl, rfl⟩
  · intro db uid req h1 h2 h3 h4 h5 h6 h7 h8 hord hdup
    have hb : (decide (0 ≤ req.startHour) && decide (req.startHour ≤ 23) &&
        decide (0 ≤ req.startMinute) && decide (req.startMinute ≤ 59) &&
        decide (0 ≤ req.endHour) && decide (req.endHour ≤ 23) &&
        decide (0 ≤ req.endMinute) && decide (req.endMinute ≤ 59)) = true := by
      simp only [Bool.and_eq_true, decide_eq_true_eq]
      exact ⟨⟨⟨⟨⟨⟨⟨h1, h2⟩, h3⟩, h4⟩, h5⟩, h6⟩, h7⟩, h8⟩
    obtain ⟨a0, ha0⟩ : ∃ a0, db.availabilities.find? (fun a =>
        a.userId == uid && a.dayOfWeek == req.dayOfWeek && a.isActive) = some a0 := by
      obtain ⟨a1, hm, hu, hd, hact⟩ := hdup
      exact Option.isSome_iff_exists.mp
        (List.find?_isSome.mpr ⟨a1, hm, by simp [hu, hd, hact]⟩)
    unfold create_availability
    rw [hb]
    rw [if_neg (by simp)]
    rw [if_neg (by omega)]
    rw [ha0]
    exact ⟨rfl, rfl⟩
  · intro db uid aid r a hfind
    unfold update_availability
    rw [hfind]
    refine ⟨rfl, ?_, ?_, ?_⟩
    · intro s hs
      simp [applyAvailabilityUpdate, hs]
    · intro e he
      simp [applyAvailabilityUpdate, he]
    · intro d hd
      simp [applyAvailabilityUpdate, hd]

theorem availability_update_skips_validation_witness :
    (create_availability c10Db 1
        { dayOfWeek := 2, startHour := 12, startMinute := 0,
          endHour := 9, endMinute := 0 }).1 =
      .error "Start time must be before end time" ∧
    (create_availability c10Db 1
        { dayOfWeek := 2, startHour := 12, startMinute := 0,
          endHour := 9, endMinute := 0 }).2 = c10Db :=
  availability_update_skips_validation.1 c10Db 1
    { dayOfWeek := 2, startHour := 12, startMinute := 0,
      endHour := 9, endMinute := 0 }
    (by decide) (by decide) (by decide) (by decide)
    (by decide) (by decide) (by decide) (by decide) (by decide)

end BCal
